import Mathlib

/-!
# RC-Dashboard: verification of the CSV ingestion and filtering pipeline

This file gives a shallow embedding of the data pipeline of the RC-Dashboard
repository (`src/utils/dataParser.ts` and the two application variants in
`src/App.tsx`): CSV parsing into typed rows, column-alias resolution,
multi-dimensional filtering (platform × build × date range) and the derived
aggregates (summary totals, distribution, trend series).

Modelling conventions:
* JavaScript strings are Lean `String`s; the string primitives the source
  uses (`split`, `trim`, `Number(...)`, `String(...)`) are re-implemented
  below over `List Char` so that everything is executable.
* JavaScript numbers are modelled as exact rationals `ℚ` (no IEEE-754
  rounding) extended with signed infinities (`JsNum`); a conversion whose
  JS result would be `NaN` is modelled as `none`.
* `undefined` is modelled with `Option`; a JS `Date` value is modelled as
  its timestamp in milliseconds (`Int`), with `none` for `Invalid Date`.
  Date strings are interpreted timezone-less (every calendar date parses
  to the midnight of that day), covering the `YYYY-MM-DD` format produced
  by the date inputs of the dashboard.
-/

set_option maxRecDepth 4000

namespace RCDash

/-- ASCII whitespace trimmed by `String.prototype.trim` / leading-trailing
whitespace accepted by `Number(...)`. -/
def jsWs (c : Char) : Bool :=
  c == ' ' || c == '\t' || c == '\n' || c == '\r' || c == '\x0b' || c == '\x0c'

/-- Trim `jsWs` characters from both ends of a character list. -/
def trimList (l : List Char) : List Char :=
  ((l.dropWhile jsWs).reverse.dropWhile jsWs).reverse

/-- Model of `s.trim()`. -/
def jsTrim (s : String) : String := String.mk (trimList s.data)

/-- Model of `String.prototype.split` with a single-character separator:
always returns a nonempty list of (possibly empty) pieces. -/
def splitCharList (c : Char) : List Char → List (List Char)
  | [] => [[]]
  | x :: xs =>
    match splitCharList c xs with
    | h :: t => if x == c then [] :: h :: t else (x :: h) :: t
    | [] => [[x]]

/-- Model of `s.split(c)` as strings. -/
def splitChar (c : Char) (s : String) : List String :=
  (splitCharList c s.data).map String.mk

/-- Model of `csvText.split(/\r?\n/)`: split on `'\n'`, dropping one
carriage return immediately preceding each newline. -/
def splitLines (s : String) : List String :=
  (splitCharList '\n' s.data).map (fun l =>
    if l.getLast? == some '\r' then String.mk l.dropLast else String.mk l)

/-- Numeric value of a decimal digit character. -/
def digitVal (c : Char) : Nat := c.toNat - 48

/-- All characters are decimal digits. -/
def allDigits (l : List Char) : Bool := l.all Char.isDigit

/-- Value of a digit string, most significant digit first. -/
def digitsToNat (l : List Char) : Nat := l.foldl (fun a c => a * 10 + digitVal c) 0

/-- Strip one leading sign; returns (isNegative, rest). -/
def stripSign : List Char → Bool × List Char
  | '-' :: cs => (true, cs)
  | '+' :: cs => (false, cs)
  | cs => (false, cs)

/-- Split at the first character satisfying `p`: returns the part before it
and, when found, the part after it. -/
def splitFirstP (p : Char → Bool) : List Char → List Char × Option (List Char)
  | [] => ([], none)
  | c :: cs =>
    if p c then ([], some cs)
    else
      match splitFirstP p cs with
      | (a, b) => (c :: a, b)

def isExpChar (c : Char) : Bool := c == 'e' || c == 'E'

def isDot (c : Char) : Bool := c == '.'

def isHexDigit (c : Char) : Bool :=
  c.isDigit || ('a' ≤ c && c ≤ 'f') || ('A' ≤ c && c ≤ 'F')

def hexVal (c : Char) : Nat :=
  if c.isDigit then c.toNat - 48
  else if 'a' ≤ c && c ≤ 'f' then c.toNat - 87
  else c.toNat - 55

def hexToNat (l : List Char) : Nat := l.foldl (fun a c => a * 16 + hexVal c) 0

def isOctDigit (c : Char) : Bool := '0' ≤ c && c ≤ '7'

def octToNat (l : List Char) : Nat := l.foldl (fun a c => a * 8 + (c.toNat - 48)) 0

def isBinDigit (c : Char) : Bool := c == '0' || c == '1'

def binToNat (l : List Char) : Nat := l.foldl (fun a c => a * 2 + (c.toNat - 48)) 0

/-- The power `10 ^ k` as a natural number (kept in `Nat` so that it evaluates fast). -/
def pow10 (k : Nat) : Nat := 10 ^ k

/-- Conversion from `Nat` to `ℚ` through `mkRat`: provably equal to the coercion
(`qOfNat_eq`), but reducible by the `decide` evaluator, unlike the
`@[irreducible]` rational arithmetic of the library. -/
def qOfNat (n : Nat) : ℚ := mkRat n 1

/-- Reducible clone of rational addition (provably equal to `+`). -/
def qAdd (a b : ℚ) : ℚ := mkRat (a.num * b.den + b.num * a.den) (a.den * b.den)

/-- Reducible clone of rational multiplication (provably equal to `*`). -/
def qMul (a b : ℚ) : ℚ := mkRat (a.num * b.num) (a.den * b.den)

/-- Reducible clone of rational division (provably equal to `/`;
division by zero gives zero, as for `Rat.div`). -/
def qDiv (a b : ℚ) : ℚ := Rat.divInt (a.num * b.den) (a.den * b.num)

theorem qOfNat_eq (n : Nat) : qOfNat n = (n : ℚ) := by
  simp [qOfNat]

theorem qAdd_eq (a b : ℚ) : qAdd a b = a + b := (Rat.add_def' a b).symm

theorem qMul_eq (a b : ℚ) : qMul a b = a * b := by
  rw [qMul, Rat.mul_def, Rat.normalize_eq_mkRat]

theorem qDiv_eq (a b : ℚ) : qDiv a b = a / b := (Rat.div_def' a b).symm

/-- Apply a base-10 exponent to a rational mantissa. -/
def applyExp (m : ℚ) (e : ℤ) : ℚ :=
  if 0 ≤ e then qMul m (qOfNat (pow10 e.toNat)) else qDiv m (qOfNat (pow10 (-e).toNat))

/-- Mantissa of a JS decimal literal: `digits`, `digits.digits`, `digits.`
or `.digits` (at least one digit overall). -/
def parseMantissa (cs : List Char) : Option ℚ :=
  match splitFirstP isDot cs with
  | (ip, none) =>
    if ip ≠ [] && allDigits ip then some (qOfNat (digitsToNat ip)) else none
  | (ip, some fp) =>
    if (ip ≠ [] || fp ≠ []) && allDigits ip && allDigits fp then
      some (qAdd (qOfNat (digitsToNat ip)) (qDiv (qOfNat (digitsToNat fp)) (qOfNat (pow10 fp.length))))
    else none

/-- Exponent part of a JS decimal literal (after the `e`/`E`). -/
def parseExp (cs : List Char) : Option ℤ :=
  match stripSign cs with
  | (neg, rest) =>
    if rest ≠ [] && allDigits rest then
      some (if neg then -(digitsToNat rest : ℤ) else (digitsToNat rest : ℤ))
    else none

/-- Unsigned JS decimal literal with optional exponent. -/
def parseUnsignedDec (cs : List Char) : Option ℚ :=
  match splitFirstP isExpChar cs with
  | (mant, none) => parseMantissa mant
  | (mant, some ex) =>
    match parseMantissa mant, parseExp ex with
    | some m, some e => some (applyExp m e)
    | _, _ => none

/-- Does the string start a non-decimal (`0x`/`0o`/`0b`) literal? -/
def isRadixStart : List Char → Bool
  | c1 :: c2 :: _ =>
    c1 == '0' && (c2 == 'x' || c2 == 'X' || c2 == 'o' || c2 == 'O' || c2 == 'b' || c2 == 'B')
  | _ => false

/-- Value of a `0x`/`0o`/`0b` literal (after `isRadixStart` matched). -/
def parseRadix : List Char → Option ℚ
  | _ :: c2 :: rest =>
    if c2 == 'x' || c2 == 'X' then
      (if rest ≠ [] && rest.all isHexDigit then some (qOfNat (hexToNat rest)) else none)
    else if c2 == 'o' || c2 == 'O' then
      (if rest ≠ [] && rest.all isOctDigit then some (qOfNat (octToNat rest)) else none)
    else
      (if rest ≠ [] && rest.all isBinDigit then some (qOfNat (binToNat rest)) else none)
  | _ => none

/-- A JS number value produced by `Number(string)`: either a finite value
(an exact rational — no IEEE-754 rounding in this model) or a signed
infinity (`Infinity` / `-Infinity`).  `NaN` is represented as `none` at
the `Option JsNum` level. -/
inductive JsNum where
  | fin (q : ℚ)
  | inf (neg : Bool)
deriving DecidableEq, Repr

/-- The characters of the literal `Infinity`. -/
def infinityChars : List Char := ['I', 'n', 'f', 'i', 'n', 'i', 't', 'y']

/-- Model of JS `Number(string)`: whitespace is trimmed, the empty string
is `0`, `0x`/`0o`/`0b` literals, signed decimal literals (with optional
fraction and exponent) and signed `Infinity` are accepted, everything
else is `none` (JS `NaN`). -/
def jsStrToNumber (s : String) : Option JsNum :=
  let cs := trimList s.data
  if cs = [] then some (JsNum.fin 0)
  else if isRadixStart cs then (parseRadix cs).map JsNum.fin
  else
    match stripSign cs with
    | (neg, rest) =>
      if rest = infinityChars then some (JsNum.inf neg)
      else
        match parseUnsignedDec rest with
        | some q => some (JsNum.fin (if neg then -q else q))
        | none => none

/-- Spec-side definition, for the refinement comparison of claim C2: the
text matches "a numeric pattern (integer or decimal, optionally signed)" —
an optional sign followed by digits, optionally followed by a point and
digits. -/
def specNumeric (s : String) : Bool :=
  match splitFirstP isDot (stripSign s.data).2 with
  | (ip, none) => ip ≠ [] && allDigits ip
  | (ip, some fp) => ip ≠ [] && fp ≠ [] && allDigits ip && allDigits fp

/-- Spec-side companion of `specNumeric`: "that text's numeric value". -/
def specNumValue (s : String) : ℚ :=
  let v :=
    match splitFirstP isDot (stripSign s.data).2 with
    | (ip, none) => qOfNat (digitsToNat ip)
    | (ip, some fp) =>
      qAdd (qOfNat (digitsToNat ip))
        (qDiv (qOfNat (digitsToNat fp)) (qOfNat (pow10 fp.length)))
  if (stripSign s.data).1 then -v else v

/-- A parsed cell: a number when the raw text coerces (a finite value, or a
signed infinity for the `Infinity` forms that `isNaN` also lets through),
the raw string otherwise (`src/types.ts`: `Record<string, any>`). -/
inductive Cell where
  | num (q : ℚ)
  | inf (neg : Bool)
  | str (s : String)
deriving DecidableEq, Repr

/-- JS truthiness of a cell value (`0`, `""` and `undefined` are falsy;
`±Infinity` is truthy). -/
def Cell.truthy : Cell → Bool
  | .num q => q != 0
  | .inf _ => true
  | .str s => s != ""

/-- A row, as built by `parseCSV`: bindings in header order; like a JS
object, a later binding for the same key overwrites an earlier one. -/
abbrev Row := List (String × Cell)

/-- Model of `r[k]`: the last binding for `k`, `none` for `undefined`. -/
def rget (r : Row) (k : String) : Option Cell :=
  r.foldl (fun acc p => if p.1 == k then some p.2 else acc) none

structure DashboardData where
  headers : List String
  rows : List Row
deriving DecidableEq, Repr

/-- The cell stored for a number value. -/
def jsNumToCell : JsNum → Cell
  | .fin q => Cell.num q
  | .inf b => Cell.inf b

/-- One cell of `parseCSV`: `let val = values[index] || ""` followed by
`if (val !== "" && !isNaN(val)) row[header] = Number(val) else row[header] = val`
(`isNaN(val)` holds exactly when `jsStrToNumber val = none`). -/
def cellOfVal (v : String) : Cell :=
  if v ≠ "" && (jsStrToNumber v).isSome then
    jsNumToCell ((jsStrToNumber v).getD (JsNum.fin 0))
  else Cell.str v

/-- The loop `headers.forEach((header, index) => ...)` building one row. -/
def buildRow (headers : List String) (values : List String) : Row :=
  headers.enum.map (fun p => (p.2, cellOfVal ((values.get? p.1).getD "")))

/-- The non-blank lines of the input
(`csvText.split(/\r?\n/).filter(line => line.trim() !== "")`). -/
def nonblankLines (s : String) : List String :=
  (splitLines s).filter (fun l => jsTrim l != "")

/-- Embedding of `parseCSV` (`src/utils/dataParser.ts`). -/
def parseCSV (csvText : String) : DashboardData :=
  match nonblankLines csvText with
  | [] => ⟨[], []⟩
  | l0 :: rest =>
    let headers := (splitChar ',' l0).map jsTrim
    ⟨headers, rest.map (fun line => buildRow headers ((splitChar ',' line).map jsTrim))⟩

/-- Reversed decimal digit expansion, fuel-bounded so that it reduces
structurally (the fuel `n + 1` always suffices). -/
def natToCharsRevAux : Nat → Nat → List Char
  | 0, _ => []
  | fuel + 1, n =>
    if n < 10 then [Char.ofNat (48 + n)]
    else Char.ofNat (48 + n % 10) :: natToCharsRevAux fuel (n / 10)

/-- Reversed decimal digit expansion of a natural number. -/
def natToCharsRev (n : Nat) : List Char := natToCharsRevAux (n + 1) n

def natToStr (n : Nat) : String := String.mk (natToCharsRev n).reverse

/-- Fuel-bounded multiplicity counter (structural, see `factorCount`). -/
def factorCountAux : Nat → Nat → Nat → Nat
  | 0, _, _ => 0
  | fuel + 1, p, n =>
    if 1 < p ∧ n ≠ 0 ∧ n % p = 0 then 1 + factorCountAux fuel p (n / p) else 0

/-- Multiplicity of the factor `p` in `n` (0 when `p ≤ 1` or `n = 0`). -/
def factorCount (p n : Nat) : Nat := factorCountAux (n + 1) p n

/-- Insert a decimal point before the last `k` digits, zero-padding so that
at least one digit precedes the point (`25`, `2` ↦ `0.25`). -/
def insertDot (ds : List Char) (k : Nat) : List Char :=
  let p := if ds.length < k + 1 then List.replicate (k + 1 - ds.length) '0' ++ ds else ds
  p.take (p.length - k) ++ '.' :: p.drop (p.length - k)

/-- Model of JS `String(number)` for the values this pipeline produces:
integers print without a point; rationals with a power-of-ten-compatible
denominator print as exact decimals (which, for values parsed from decimal
text, matches the JS shortest-round-trip printing); any other rational —
unreachable for data coming from `parseCSV` — falls back to a
numerator/denominator rendering. -/
def numToStr (q : ℚ) : String :=
  let sign := if q.num < 0 then "-" else ""
  let a := q.num.natAbs
  if q.den = 1 then sign ++ natToStr a
  else
    let a2 := factorCount 2 q.den
    let a5 := factorCount 5 q.den
    if 2 ^ a2 * 5 ^ a5 = q.den then
      let k := max a2 a5
      let scaled := a * (pow10 k / q.den)
      sign ++ String.mk (insertDot (natToCharsRev scaled).reverse k)
    else sign ++ natToStr a ++ "/" ++ natToStr q.den

/-- Model of `String(x)` on a cell value. -/
def cellToString : Cell → String
  | .num q => numToStr q
  | .inf b => if b then "-Infinity" else "Infinity"
  | .str s => s

/-- Model of `String(x)` where `x` may be `undefined`. -/
def jsStringOpt : Option Cell → String
  | some c => cellToString c
  | none => "undefined"

/-- The finite value of a JS number, `none` otherwise. -/
def jsFinite : Option JsNum → Option ℚ
  | some (.fin q) => some q
  | _ => none

/-- The finite value of `Number(x)` on a cell, `none` for `NaN`.  The
`ℚ`-valued aggregation layer built on this treats a non-finite
`Number(...)` result like a `NaN` (contributing 0 through `|| 0`): an
idealization of the exact-rational aggregation model — JS would propagate
the infinity through the sums — on which no theorem of this development
relies. -/
def cellToNumber : Cell → Option ℚ
  | .num q => some q
  | .inf _ => none
  | .str s => jsFinite (jsStrToNumber s)

/-! ### Column aliases and resolution (`src/App.tsx`, first variant) -/

def BUILD_COL_ALIASES : List String :=
  ["RC Build", "Build Version", "Build", "Version", "Build Number"]

def PLATFORM_COL_ALIASES : List String := ["Platform", "OS", "Environment"]

def DATE_COL_ALIASES : List String := ["Build Date", "Date", "Reported Date", "Created At"]

/-- Model of `ALIASES.find(a => headers.includes(a))`: the first alias (in declared
order) that is an exact member of `headers`. -/
def resolveAlias (aliases headers : List String) : Option String :=
  aliases.find? (fun a => headers.contains a)

/-! ### Dates

A JS `Date` is modelled as its millisecond timestamp (`Int`), `none`
standing for `Invalid Date`/`NaN`.  String parsing covers the
`YYYY-MM-DD` format produced by the dashboard's date inputs; all dates are
interpreted in a single timezone-less frame, so a calendar date parses to
the midnight that starts that day. -/

def msPerDay : Int := 86400000

def daysInMonth (y m : Nat) : Nat :=
  if m = 2 then (if (y % 4 = 0 && y % 100 ≠ 0) || y % 400 = 0 then 29 else 28)
  else if m = 4 || m = 6 || m = 9 || m = 11 then 30 else 31

/-- Days since 1970-01-01 of the civil date `y-m-d` (valid for `y ≥ 1`). -/
def daysFromCivil (y m d : Nat) : Int :=
  let yAdj := if m ≤ 2 then y - 1 else y
  let era := yAdj / 400
  let yoe := yAdj % 400
  let mp := if 2 < m then m - 3 else m + 9
  let doy := (153 * mp + 2) / 5 + (d - 1)
  let doe := yoe * 365 + yoe / 4 - yoe / 100 + doy
  (era * 146097 + doe : Int) - 719468

/-- Model of `new Date(s).getTime()` for `YYYY-MM-DD` strings (midnight of
that day); everything else is `Invalid Date` (`none`). -/
def jsDateStr (s : String) : Option Int :=
  match splitCharList '-' s.data with
  | [ys, ms, ds] =>
    if ys.length = 4 && ms.length = 2 && ds.length = 2 &&
        allDigits ys && allDigits ms && allDigits ds then
      let y := digitsToNat ys
      let m := digitsToNat ms
      let d := digitsToNat ds
      if 1 ≤ m && m ≤ 12 && 1 ≤ d && d ≤ daysInMonth y m then
        some (daysFromCivil y m d * msPerDay)
      else none
    else none
  | _ => none

/-- Model of `new Date(x).getTime()` on a cell (a number is a timestamp,
truncated toward zero; a string is parsed). -/
def jsDateCell : Cell → Option Int
  | .num q => some (q.num.tdiv q.den)
  | .inf _ => none
  | .str s => jsDateStr s

/-- Model of `new Date(x)` where `x` may be `undefined` (→ `Invalid Date`). -/
def jsDateOpt : Option Cell → Option Int
  | some c => jsDateCell c
  | none => none

/-- Date comparison `a >= b`: false when either side is `Invalid Date`. -/
def dateGe (a b : Option Int) : Bool :=
  match a, b with
  | some x, some y => decide (y ≤ x)
  | _, _ => false

/-- Date comparison `a <= b`: false when either side is `Invalid Date`. -/
def dateLe (a b : Option Int) : Bool :=
  match a, b with
  | some x, some y => decide (x ≤ y)
  | _, _ => false

/-! ### Filter engine -/

/-- The filter selection state (`'All'`/`''` are the no-op sentinels). -/
structure Selection where
  platform : String
  build : String
  startDate : String
  endDate : String
deriving DecidableEq, Repr

/-- One conditional filtering stage: `if (g) rows = rows.filter(f)`. -/
def gatedFilter (g : Bool) (f : Row → Bool) (l : List Row) : List Row :=
  if g then l.filter f else l

/-- Predicate `String(r[pCol]) === selectedPlatform`. -/
def platformPredV1 (sel : Selection) (pCol : String) (r : Row) : Bool :=
  jsStringOpt (rget r pCol) == sel.platform

/-- Predicate `String(r[bCol]) === selectedBuild`. -/
def buildPredV1 (sel : Selection) (bCol : String) (r : Row) : Bool :=
  jsStringOpt (rget r bCol) == sel.build

/-- The date-range predicate of the first variant:
`if (!r[dCol ⊕ '']) return false; const bd = new Date(r[dCol ⊕ '']);
return (!startDate || bd >= new Date(startDate)) && (!endDate || bd <= new Date(endDate))`. -/
def datePredV1 (sel : Selection) (dKey : String) (r : Row) : Bool :=
  match rget r dKey with
  | none => false
  | some c =>
    c.truthy &&
    ((sel.startDate == "" || dateGe (jsDateCell c) (jsDateStr sel.startDate)) &&
     (sel.endDate == "" || dateLe (jsDateCell c) (jsDateStr sel.endDate)))

/-- The platform stage:
`if (selectedPlatform !== 'All' && pCol) rows = rows.filter(...)`. -/
def stagePlatform (data : DashboardData) (sel : Selection) : List Row → List Row :=
  gatedFilter
    (sel.platform != "All" && (resolveAlias PLATFORM_COL_ALIASES data.headers).isSome)
    (platformPredV1 sel ((resolveAlias PLATFORM_COL_ALIASES data.headers).getD ""))

/-- The build stage:
`if (selectedBuild !== 'All' && bCol) rows = rows.filter(...)`. -/
def stageBuild (data : DashboardData) (sel : Selection) : List Row → List Row :=
  gatedFilter
    (sel.build != "All" && (resolveAlias BUILD_COL_ALIASES data.headers).isSome)
    (buildPredV1 sel ((resolveAlias BUILD_COL_ALIASES data.headers).getD ""))

/-- The date-range stage:
`if (startDate || endDate) rows = rows.filter(...)` — applied with the key
`dCol || ''` whether or not the date alias resolves. -/
def stageDate (data : DashboardData) (sel : Selection) : List Row → List Row :=
  gatedFilter (sel.startDate != "" || sel.endDate != "")
    (datePredV1 sel ((resolveAlias DATE_COL_ALIASES data.headers).getD ""))

/-- Embedding of `filteredRows` (first variant, `src/App.tsx` lines
215–228): platform, build then date-range stage, each applied only when
its gate holds; the date stage falls back to the key `''` when no date
alias resolves. -/
def filteredRows (data : DashboardData) (sel : Selection) : List Row :=
  stageDate data sel (stageBuild data sel (stagePlatform data sel data.rows))

/-- Strict equality `cell === s` between a cell and a selection string. -/
def cellStrictEqStr (oc : Option Cell) (s : String) : Bool :=
  match oc with
  | some (.str t) => t == s
  | _ => false

/-- Comparison `bd <= end` where `end = new Date(endDate)` moved to 23:59:59.999 of
its day (second variant's inclusive end bound). -/
def dateLeEndOfDay (a e : Option Int) : Bool :=
  match a, e with
  | some bd, some ed => decide (bd ≤ ed + 86399999)
  | _, _ => false

/-- Embedding of `filteredRows` (second variant, hard-coded column keys):
build, platform, start-date, then end-of-day-inclusive end-date stage. -/
def filteredRowsV2 (rows : List Row) (sel : Selection) : List Row :=
  gatedFilter (sel.endDate != "")
    (fun r => dateLeEndOfDay (jsDateOpt (rget r "Build Date")) (jsDateStr sel.endDate))
    (gatedFilter (sel.startDate != "")
      (fun r => dateGe (jsDateOpt (rget r "Build Date")) (jsDateStr sel.startDate))
      (gatedFilter (sel.platform != "All")
        (fun r => cellStrictEqStr (rget r "Platform") sel.platform)
        (gatedFilter (sel.build != "All")
          (fun r => cellStrictEqStr (rget r "RC Build") sel.build)
          rows)))

/-! ### Aggregator (first variant) -/

/-- Model of `Number(r[k]) || 0`: numeric value of a cell, 0 for a missing cell or
a `NaN` coercion. -/
def cellNumAt (r : Row) (k : String) : ℚ :=
  ((rget r k).bind cellToNumber).getD 0

/-- Sum of `Number(r[k]) || 0` over the rows (a `reduce` with seed 0). -/
def sumCellNum (rows : List Row) (k : String) : ℚ :=
  rows.foldl (fun s r => qAdd s (cellNumAt r k)) 0

structure SummaryStats where
  total : ℚ
  executed : ℚ
  passed : ℚ
  critical : ℚ
deriving DecidableEq, Repr

def addRowStats (acc : SummaryStats) (r : Row) : SummaryStats :=
  { total := qAdd acc.total (cellNumAt r "Total Test Cases")
    executed := qAdd acc.executed (cellNumAt r "Executed")
    passed := qAdd acc.passed (cellNumAt r "Passed")
    critical := qAdd acc.critical (cellNumAt r "Critical Issues") }

/-- Embedding of `summaryStats` (first variant): `null` (`none`) when the
filtered row set is empty, otherwise the reduce over it.  (The summary-tab
gate `activeTab !== SUMMARY` is presentation state and is not modelled.) -/
def summaryStats (rows : List Row) : Option SummaryStats :=
  if rows.isEmpty then none
  else some (rows.foldl addRowStats ⟨0, 0, 0, 0⟩)

/-- Value `summaryStats?.total || 0` as displayed by the Total Cases card. -/
def displayedTotal (rows : List Row) : ℚ :=
  match summaryStats rows with
  | some s => s.total
  | none => 0

/-- Value `summaryStats?.executed || 0` as displayed by the Executed card. -/
def displayedExecuted (rows : List Row) : ℚ :=
  match summaryStats rows with
  | some s => s.executed
  | none => 0

/-- Value `summaryStats?.passed || 0`. -/
def displayedPassed (rows : List Row) : ℚ :=
  match summaryStats rows with
  | some s => s.passed
  | none => 0

/-- Value `summaryStats?.critical || 0` as displayed by the Critical card. -/
def displayedCritical (rows : List Row) : ℚ :=
  match summaryStats rows with
  | some s => s.critical
  | none => 0

/-- The Pass Rate card:
`summaryStats?.executed ? (summaryStats.passed / summaryStats.executed) * 100 : 0`
(the display rounding `toFixed(1)` is presentation and is not modelled). -/
def displayedPassRate (rows : List Row) : ℚ :=
  match summaryStats rows with
  | none => 0
  | some s => if s.executed = 0 then 0 else qMul (qDiv s.passed s.executed) (qOfNat 100)

/-- Embedding of `pieData` (first variant): empty on an empty filtered row
set, otherwise the three named bucket sums. -/
def pieData (rows : List Row) : List (String × ℚ) :=
  if rows.isEmpty then []
  else
    [("Pass", sumCellNum rows "Passed"),
     ("Fail", sumCellNum rows "Failed"),
     ("N/A", sumCellNum rows "Not considered")]

/-- JS `a || b` on possibly-undefined values. -/
def jsOrCell (a b : Option Cell) : Option Cell :=
  match a with
  | some c => if c.truthy then some c else b
  | none => b

/-- Model of `Number(r[k1] || r[k2]) || 0`. -/
def cellNumOr (r : Row) (k1 k2 : String) : ℚ :=
  ((jsOrCell (rget r k1) (rget r k2)).bind cellToNumber).getD 0

structure TrendPoint where
  name : Option Cell
  passed : ℚ
  failed : ℚ
  critical : ℚ
  major : ℚ
  minor : ℚ
  automation : ℚ
  manual : ℚ
deriving DecidableEq, Repr

/-- One point of the trend series (`trendData`'s `map` body). -/
def mkTrendPoint (r : Row) : TrendPoint :=
  { name := jsOrCell (jsOrCell (rget r "RC Build") (rget r "Build")) (rget r "Build Version")
    passed := cellNumAt r "Passed"
    failed := cellNumAt r "Failed"
    critical := cellNumAt r "Critical Issues"
    major := cellNumAt r "Major Issues"
    minor := cellNumAt r "Minor Issues"
    automation := cellNumOr r "Automation executed" "Automation"
    manual := cellNumOr r "Manual executed" "Manual" }

/-- Embedding of `trendData`:
`filteredRows.slice(0, 10).reverse().map(r => ({...}))`. -/
def trendData (rows : List Row) : List TrendPoint :=
  ((rows.take 10).reverse).map mkTrendPoint

/-- The cell is absent, or a string that does not coerce to a number
(including the empty string, which JS coerces to 0): exactly the cases in
which a `Number(...) || 0` count contributes 0. -/
def nonNumCell : Option Cell → Bool
  | none => true
  | some (Cell.str s) => (jsStrToNumber s).isNone || s == ""
  | some (Cell.num _) => false
  | some (Cell.inf _) => false

/-! ### The platform-scoped builds list (first variant) -/

/-- Natural-sort tokenization: maximal runs of digits / non-digits. -/
def tokens : List Char → List (Bool × List Char)
  | [] => []
  | c :: cs =>
    match tokens cs with
    | (b, t) :: rest =>
      if c.isDigit == b then (b, c :: t) :: rest else (c.isDigit, [c]) :: (b, t) :: rest
    | [] => [(c.isDigit, [c])]

/-- Key of the numeric-aware comparison modelling
`localeCompare(..., { numeric: true })`: digit runs compare by value and
before text runs; text runs compare by code points (shifted past the two
tag values). -/
def natKey (s : String) : List Nat :=
  (tokens s.data).foldr
    (fun p acc =>
      (if p.1 then [0, digitsToNat p.2] else 1 :: p.2.map (fun c => c.toNat + 2)) ++ acc)
    []

/-- Lexicographic `≤` on key lists. -/
def keyLe : List Nat → List Nat → Bool
  | [], _ => true
  | _ :: _, [] => false
  | a :: as, b :: bs =>
    if a < b then true else if a = b then keyLe as bs else false

/-- Relation: `a` sorts no later than `b` in descending natural order. -/
def natDescRel (a b : String) : Prop := keyLe (natKey b) (natKey a) = true

instance : DecidableRel natDescRel :=
  fun a b => instDecidableEqBool (keyLe (natKey b) (natKey a)) true

/-- JS `Set.prototype.add` on an insertion-ordered list model. -/
def addToSet (acc : List String) (s : String) : List String :=
  if acc.contains s then acc else acc ++ [s]

/-- Model of `r[bCol] || ''` (a falsy cell degrades to the empty string). -/
def jsOrEmptyCell : Option Cell → Cell
  | some c => if c.truthy then c else Cell.str ""
  | none => Cell.str ""

/-- Condition `selectedPlatform === 'All' || (pCol && String(r[pCol]) === selectedPlatform)`. -/
def rowMatchesPlatform (sel : Selection) (pCol : Option String) (r : Row) : Bool :=
  sel.platform == "All" || (pCol.isSome && jsStringOpt (rget r (pCol.getD "")) == sel.platform)

/-- Model of `String(r[bCol] || '').trim()`. -/
def buildStrOfRow (bc : String) (r : Row) : String :=
  jsTrim (cellToString (jsOrEmptyCell (rget r bc)))

/-- The contribution of one dataset to the builds set. -/
def buildsOfData (sel : Selection) (acc : List String) (d : DashboardData) : List String :=
  match resolveAlias BUILD_COL_ALIASES d.headers with
  | none => acc
  | some bc =>
    d.rows.foldl
      (fun a r =>
        if rowMatchesPlatform sel (resolveAlias PLATFORM_COL_ALIASES d.headers) r then
          addToSet a (buildStrOfRow bc r)
        else a)
      acc

/-- Embedding of `builds` (first variant, `src/App.tsx` lines 188–197):
platform-scoped distinct build strings over every loaded dataset, empty
strings dropped, sorted descending by the numeric-aware comparison
(`Array.prototype.sort` is modelled by insertion sort, which produces a
list that is sorted for the comparator and a permutation of its input —
the two properties the specification constrains). -/
def builds (dataMaps : List DashboardData) (sel : Selection) : List String :=
  List.insertionSort natDescRel
    ((dataMaps.foldl (buildsOfData sel) []).filter (fun s => s != ""))

/-! ### Order facts for the natural-sort comparator -/

theorem keyLe_total : ∀ x y : List Nat, keyLe x y = true ∨ keyLe y x = true := by
  intro x
  induction x with
  | nil => intro y; left; rfl
  | cons a as ih =>
    intro y
    cases y with
    | nil => right; rfl
    | cons b bs =>
      rcases Nat.lt_trichotomy a b with h | h | h
      · left; simp [keyLe, h]
      · subst h
        rcases ih bs with h' | h'
        · left; simp [keyLe, h']
        · right; simp [keyLe, h']
      · right; simp [keyLe, h]

theorem keyLe_trans :
    ∀ x y z : List Nat, keyLe x y = true → keyLe y z = true → keyLe x z = true := by
  intro x
  induction x with
  | nil => intros; rfl
  | cons a as ih =>
    intro y z hxy hyz
    cases y with
    | nil => simp [keyLe] at hxy
    | cons b bs =>
      cases z with
      | nil => simp [keyLe] at hyz
      | cons c cs =>
        by_cases hab : a < b
        · by_cases hbc : b < c
          · simp [keyLe, Nat.lt_trans hab hbc]
          · by_cases hbc' : b = c
            · subst hbc'; simp [keyLe, hab]
            · simp [keyLe, hbc, hbc'] at hyz
        · by_cases hab' : a = b
          · subst hab'
            by_cases hbc : a < c
            · simp [keyLe, hbc]
            · by_cases hbc' : a = c
              · subst hbc'
                simp only [keyLe, Nat.lt_irrefl, if_false, if_pos rfl] at hxy hyz ⊢
                exact ih bs cs hxy hyz
              · simp [keyLe, hbc, hbc'] at hyz
          · simp [keyLe, hab, hab'] at hxy

instance : IsTotal String natDescRel :=
  ⟨fun a b => keyLe_total (natKey b) (natKey a)⟩

instance : IsTrans String natDescRel :=
  ⟨fun _ _ _ hab hbc => keyLe_trans _ _ _ hbc hab⟩

/-- Predicate: `x` is one of the build strings dataset `d` contributes under
selection `sel`: the build alias resolves, and some row matching the
platform scope yields `x` as its trimmed stringified build cell. -/
def buildFromDataset (sel : Selection) (d : DashboardData) (x : String) : Prop :=
  ∃ bc, resolveAlias BUILD_COL_ALIASES d.headers = some bc ∧
    ∃ r ∈ d.rows,
      rowMatchesPlatform sel (resolveAlias PLATFORM_COL_ALIASES d.headers) r = true ∧
      buildStrOfRow bc r = x

/-! ## Theorems -/

/-! ## C3 — shape of the parsed dataset -/

/-- Claim C3: for every input string, if no non-blank line remains the
parser returns the empty dataset (and in particular never fails — it is a
total function); otherwise the headers are the trimmed comma-split of the
first non-blank line and the row count is the number of non-blank lines
minus one (`Nat` subtraction, i.e. `max (0, n - 1)`). -/
theorem parse_shape (t : String) :
    (nonblankLines t = [] → parseCSV t = ⟨[], []⟩) ∧
    ∀ l0 rest, nonblankLines t = l0 :: rest →
      (parseCSV t).headers = (splitChar ',' l0).map jsTrim ∧
      (parseCSV t).rows.length = (nonblankLines t).length - 1 := by
  constructor
  · intro h
    simp [parseCSV, h]
  · intro l0 rest h
    simp [parseCSV, h]

/-- Witness for `parse_shape` at concrete inputs: the empty input parses
to the empty dataset; a 4-line input with a blank line has the trimmed
headers of line 1 and two rows. -/
theorem parse_shape_w :
    parseCSV "" = ⟨[], []⟩ ∧
    (parseCSV "A, B\nx,1\n\n2,3").headers = ["A", "B"] ∧
    (parseCSV "A, B\nx,1\n\n2,3").rows.length = 2 := by
  refine ⟨(parse_shape "").1 (by decide), ?_, ?_⟩
  · rw [((parse_shape "A, B\nx,1\n\n2,3").2 "A, B" ["x,1", "2,3"] (by decide)).1]
    decide
  · rw [((parse_shape "A, B\nx,1\n\n2,3").2 "A, B" ["x,1", "2,3"] (by decide)).2]
    decide

/-! ## C8 — alias resolution returns the first present alias -/

/-- Claim C8: for every alias group and header list, resolution returns
`none` exactly when no alias is a member of the headers, and returns
`some x` exactly when `x` is an alias all of whose predecessors in the
group's declared order are absent from the headers while `x` itself is
present (exact, case-sensitive, untrimmed list membership) — covering all
combinations of which aliases are present. -/
theorem resolveAlias_spec (g headers : List String) :
    (resolveAlias g headers = none ↔ ∀ a ∈ g, a ∉ headers) ∧
    ∀ x, (resolveAlias g headers = some x ↔
      ∃ l1 l2, g = l1 ++ x :: l2 ∧ x ∈ headers ∧ ∀ y ∈ l1, y ∉ headers) := by
  constructor
  · rw [resolveAlias, List.find?_eq_none]
    constructor
    · intro h a ha hmem
      exact h a ha (List.elem_iff.mpr hmem)
    · intro h a ha hc
      exact h a ha (List.elem_iff.mp hc)
  · induction g with
    | nil => intro x; simp [resolveAlias]
    | cons a g' ih =>
      intro x
      by_cases hmem : a ∈ headers
      · have hstep : resolveAlias (a :: g') headers = some a := by
          rw [resolveAlias]
          exact @List.find?_cons_of_pos String (fun al => headers.contains al) a g'
            (List.elem_iff.mpr hmem)
        rw [hstep]
        constructor
        · intro h
          cases h
          exact ⟨[], g', rfl, hmem, by simp⟩
        · rintro ⟨l1, l2, hg, hx, hl1⟩
          cases l1 with
          | nil =>
            simp only [List.nil_append] at hg
            cases hg
            rfl
          | cons b l1' =>
            simp only [List.cons_append, List.cons.injEq] at hg
            exact absurd (hg.1 ▸ hmem) (hl1 b (List.mem_cons_self b l1'))
      · have hstep : resolveAlias (a :: g') headers = resolveAlias g' headers := by
          rw [resolveAlias, resolveAlias]
          exact @List.find?_cons_of_neg String (fun al => headers.contains al) a g'
            (fun hc => hmem (List.elem_iff.mp hc))
        rw [hstep, ih x]
        constructor
        · rintro ⟨l1, l2, hg, hx, hl1⟩
          refine ⟨a :: l1, l2, by rw [hg, List.cons_append], hx, ?_⟩
          intro y hy
          rcases List.mem_cons.mp hy with h | h
          · exact h ▸ hmem
          · exact hl1 y h
        · rintro ⟨l1, l2, hg, hx, hl1⟩
          cases l1 with
          | nil =>
            simp only [List.nil_append, List.cons.injEq] at hg
            exact absurd hx (hg.1 ▸ hmem)
          | cons b l1' =>
            simp only [List.cons_append, List.cons.injEq] at hg
            exact ⟨l1', l2, hg.2, hx, fun y hy => hl1 y (List.mem_cons_of_mem b hy)⟩

/-- Witness for `resolveAlias_spec`: over headers `["Version", "Build"]`
the build alias group resolves to `"Build"` (its first present alias), and
over headers that contain no alias it resolves to `none`. -/
theorem resolveAlias_spec_w :
    resolveAlias BUILD_COL_ALIASES ["Version", "Build"] = some "Build" ∧
    resolveAlias DATE_COL_ALIASES ["Platform"] = none := by
  constructor
  · exact ((resolveAlias_spec BUILD_COL_ALIASES ["Version", "Build"]).2 "Build").mpr
      ⟨["RC Build", "Build Version"], ["Version", "Build Number"], by decide, by decide,
        by decide⟩
  · exact (resolveAlias_spec DATE_COL_ALIASES ["Platform"]).1.mpr (by decide)

/-! ## C9 — shape of the trend series -/

theorem cellNumAt_eq_zero (r : Row) (k : String) (h : nonNumCell (rget r k) = true) :
    cellNumAt r k = 0 := by
  unfold cellNumAt
  cases hc : rget r k with
  | none => rfl
  | some c =>
    rw [hc] at h
    cases c with
    | num q => simp [nonNumCell] at h
    | inf b => simp [nonNumCell] at h
    | str s =>
      simp only [nonNumCell, Bool.or_eq_true, Option.isNone_iff_eq_none, beq_iff_eq] at h
      rcases h with h | h
      · simp [cellToNumber, jsFinite, h]
      · subst h
        simp [cellToNumber, jsFinite,
          show jsStrToNumber "" = some (JsNum.fin 0) from by decide]

theorem cellNumOr_eq_zero (r : Row) (k1 k2 : String)
    (h1 : nonNumCell (rget r k1) = true) (h2 : nonNumCell (rget r k2) = true) :
    cellNumOr r k1 k2 = 0 := by
  unfold cellNumOr jsOrCell
  cases hc1 : rget r k1 with
  | none =>
    cases hc2 : rget r k2 with
    | none => rfl
    | some c2 =>
      rw [hc2] at h2
      cases c2 with
      | num q => simp [nonNumCell] at h2
      | inf b => simp [nonNumCell] at h2
      | str s =>
        simp only [nonNumCell, Bool.or_eq_true, Option.isNone_iff_eq_none, beq_iff_eq] at h2
        rcases h2 with h2 | h2
        · simp [cellToNumber, jsFinite, h2]
        · subst h2
          simp [cellToNumber, jsFinite,
            show jsStrToNumber "" = some (JsNum.fin 0) from by decide]
  | some c1 =>
    rw [hc1] at h1
    cases c1 with
    | num q => simp [nonNumCell] at h1
    | inf b => simp [nonNumCell] at h1
    | str s =>
      simp only [nonNumCell, Bool.or_eq_true, Option.isNone_iff_eq_none, beq_iff_eq] at h1
      by_cases hs : s = ""
      · subst hs
        show ((if (Cell.str "").truthy = true then some (Cell.str "") else rget r k2).bind
          cellToNumber).getD 0 = 0
        rw [if_neg (by decide)]
        cases hc2 : rget r k2 with
        | none => rfl
        | some c2 =>
          rw [hc2] at h2
          cases c2 with
          | num q => simp [nonNumCell] at h2
          | inf b => simp [nonNumCell] at h2
          | str t =>
            simp only [nonNumCell, Bool.or_eq_true, Option.isNone_iff_eq_none,
              beq_iff_eq] at h2
            rcases h2 with h2 | h2
            · simp [cellToNumber, jsFinite, h2]
            · subst h2
              simp [cellToNumber, jsFinite,
                show jsStrToNumber "" = some (JsNum.fin 0) from by decide]
      · have htr : Cell.truthy (Cell.str s) = true := by
          simp [Cell.truthy, hs]
        show ((if (Cell.str s).truthy = true then some (Cell.str s) else rget r k2).bind
          cellToNumber).getD 0 = 0
        rw [if_pos htr]
        rcases h1 with h1 | h1
        · simp [cellToNumber, jsFinite, h1]
        · exact absurd h1 hs

/-- Claim C9: the trend series is exactly the first `min (10, length)` rows
of the filtered set, reversed to chronological order and mapped to points;
each point's label is the `RC Build` cell with the `Build` /
`Build Version` alias fallbacks, and each Passed/Failed/Critical/Major/
Minor/Automation/Manual count is 0 whenever its cell (every cell of its
fallback chain, for the last two) is missing or a non-numeric string. -/
theorem trend_spec (rows : List Row) :
    trendData rows = ((rows.take 10).reverse).map mkTrendPoint ∧
    (trendData rows).length = min 10 rows.length ∧
    ∀ r : Row,
      (mkTrendPoint r).name =
        jsOrCell (jsOrCell (rget r "RC Build") (rget r "Build")) (rget r "Build Version") ∧
      (nonNumCell (rget r "Passed") = true → (mkTrendPoint r).passed = 0) ∧
      (nonNumCell (rget r "Failed") = true → (mkTrendPoint r).failed = 0) ∧
      (nonNumCell (rget r "Critical Issues") = true → (mkTrendPoint r).critical = 0) ∧
      (nonNumCell (rget r "Major Issues") = true → (mkTrendPoint r).major = 0) ∧
      (nonNumCell (rget r "Minor Issues") = true → (mkTrendPoint r).minor = 0) ∧
      (nonNumCell (rget r "Automation executed") = true →
        nonNumCell (rget r "Automation") = true → (mkTrendPoint r).automation = 0) ∧
      (nonNumCell (rget r "Manual executed") = true →
        nonNumCell (rget r "Manual") = true → (mkTrendPoint r).manual = 0) := by
  refine ⟨rfl, ?_, ?_⟩
  · rw [trendData, List.length_map, List.length_reverse, List.length_take]
  · intro r
    exact ⟨rfl,
      fun h => cellNumAt_eq_zero r "Passed" h,
      fun h => cellNumAt_eq_zero r "Failed" h,
      fun h => cellNumAt_eq_zero r "Critical Issues" h,
      fun h => cellNumAt_eq_zero r "Major Issues" h,
      fun h => cellNumAt_eq_zero r "Minor Issues" h,
      fun h1 h2 => cellNumOr_eq_zero r "Automation executed" "Automation" h1 h2,
      fun h1 h2 => cellNumOr_eq_zero r "Manual executed" "Manual" h1 h2⟩

/-- Witness for `trend_spec`: a single row whose `Passed` cell is the
non-numeric string `"n/a"` and whose issue cells are absent yields one
trend point with zero counts. -/
theorem trend_spec_w :
    (trendData [[("RC Build", Cell.str "5.1"), ("Passed", Cell.str "n/a")]]).length = 1 ∧
    (mkTrendPoint [("RC Build", Cell.str "5.1"), ("Passed", Cell.str "n/a")]).passed = 0 ∧
    (mkTrendPoint [("RC Build", Cell.str "5.1"), ("Passed", Cell.str "n/a")]).automation = 0 := by
  refine ⟨?_, ?_, ?_⟩
  · rw [(trend_spec [[("RC Build", Cell.str "5.1"), ("Passed", Cell.str "n/a")]]).2.1]
    decide
  · exact (((trend_spec [[("RC Build", Cell.str "5.1"), ("Passed", Cell.str "n/a")]]).2.2
      [("RC Build", Cell.str "5.1"), ("Passed", Cell.str "n/a")]).2.1 (by decide))
  · exact (((trend_spec [[("RC Build", Cell.str "5.1"), ("Passed", Cell.str "n/a")]]).2.2
      [("RC Build", Cell.str "5.1"), ("Passed", Cell.str "n/a")]).2.2.2.2.2.2.1
      (by decide) (by decide))

/-! ## C5 — aggregation of an empty filtered row set -/

/-- Counterexample to claim C5: on an empty filtered row set the distribution
is the *empty list* — there are no zero-valued `Pass`/`Fail`/`N/A` buckets,
contrary to the claim's "all distribution buckets 0". -/
theorem aggregate_empty_cex :
    pieData [] = [] ∧
    pieData [] ≠ [("Pass", 0), ("Fail", 0), ("N/A", 0)] :=
  ⟨rfl, by decide⟩

/-- Claim C5 (amended): aggregation degrades on an empty filtered row set
without dividing by zero: `summaryStats` is `null`, every displayed total
and the displayed pass rate are 0, the trend series is empty and the
distribution list is empty (no buckets at all, rather than three zero
buckets); in general the displayed pass rate is `passed / executed × 100`
with 0 whenever the displayed executed total is 0. -/
theorem aggregate_empty (rows : List Row) :
    summaryStats [] = none ∧
    displayedTotal [] = 0 ∧ displayedExecuted [] = 0 ∧ displayedPassed [] = 0 ∧
    displayedCritical [] = 0 ∧ displayedPassRate [] = 0 ∧
    trendData [] = [] ∧ pieData [] = [] ∧
    (displayedExecuted rows = 0 → displayedPassRate rows = 0) ∧
    (displayedExecuted rows ≠ 0 →
      displayedPassRate rows = displayedPassed rows / displayedExecuted rows * 100) := by
  refine ⟨rfl, rfl, rfl, rfl, rfl, rfl, rfl, rfl, ?_, ?_⟩
  · intro h
    unfold displayedPassRate
    unfold displayedExecuted at h
    cases hs : summaryStats rows with
    | none => rfl
    | some s =>
      rw [hs] at h
      have h' : s.executed = 0 := h
      show (if s.executed = 0 then (0 : ℚ)
        else qMul (qDiv s.passed s.executed) (qOfNat 100)) = 0
      rw [if_pos h']
  · intro h
    unfold displayedPassRate displayedPassed displayedExecuted
    unfold displayedExecuted at h
    cases hs : summaryStats rows with
    | none =>
      rw [hs] at h
      exact absurd rfl h
    | some s =>
      rw [hs] at h
      have h' : s.executed ≠ 0 := h
      show (if s.executed = 0 then (0 : ℚ)
        else qMul (qDiv s.passed s.executed) (qOfNat 100)) = s.passed / s.executed * 100
      rw [if_neg h', qMul_eq, qDiv_eq, qOfNat_eq]
      norm_num

/-- Witness for `aggregate_empty`: with one row of 80 passed over 100
executed the displayed pass rate is the ratio formula (80%), and with one
row of 0 executed it is 0. -/
theorem aggregate_empty_w :
    displayedPassRate [[("Passed", Cell.num 80), ("Executed", Cell.num 100)]] =
      displayedPassed [[("Passed", Cell.num 80), ("Executed", Cell.num 100)]] /
        displayedExecuted [[("Passed", Cell.num 80), ("Executed", Cell.num 100)]] * 100 ∧
    displayedPassRate [[("Passed", Cell.num 80), ("Executed", Cell.num 0)]] = 0 := by
  constructor
  · exact (aggregate_empty [[("Passed", Cell.num 80), ("Executed", Cell.num 100)]]).2.2.2.2.2.2.2.2.2
      (by decide)
  · exact (aggregate_empty [[("Passed", Cell.num 80), ("Executed", Cell.num 0)]]).2.2.2.2.2.2.2.2.1
      (by decide)

/-! ## C6 — the platform-scoped builds list -/


theorem mem_addToSet (acc : List String) (s x : String) :
    x ∈ addToSet acc s ↔ x ∈ acc ∨ x = s := by
  unfold addToSet
  by_cases h : acc.contains s = true
  · rw [if_pos h]
    constructor
    · exact Or.inl
    · rintro (hx | rfl)
      · exact hx
      · exact List.elem_iff.mp h
  · rw [if_neg h]
    simp

theorem mem_foldl_add (f : Row → String) (cond : Row → Bool) :
    ∀ (rs : List Row) (acc : List String) (x : String),
      x ∈ rs.foldl (fun a r => if cond r then addToSet a (f r) else a) acc ↔
        x ∈ acc ∨ ∃ r ∈ rs, cond r = true ∧ f r = x := by
  intro rs
  induction rs with
  | nil => simp
  | cons r rs' ih =>
    intro acc x
    simp only [List.foldl_cons]
    by_cases hc : cond r = true
    · rw [if_pos hc, ih, mem_addToSet]
      constructor
      · rintro ((h | rfl) | ⟨r', hr', hc', hf⟩)
        · exact Or.inl h
        · exact Or.inr ⟨r, List.mem_cons_self r rs', hc, rfl⟩
        · exact Or.inr ⟨r', List.mem_cons_of_mem r hr', hc', hf⟩
      · rintro (h | ⟨r', hr', hc', hf⟩)
        · exact Or.inl (Or.inl h)
        · rcases List.mem_cons.mp hr' with rfl | hr''
          · exact Or.inl (Or.inr hf.symm)
          · exact Or.inr ⟨r', hr'', hc', hf⟩
    · rw [if_neg hc, ih]
      constructor
      · rintro (h | ⟨r', hr', hc', hf⟩)
        · exact Or.inl h
        · exact Or.inr ⟨r', List.mem_cons_of_mem r hr', hc', hf⟩
      · rintro (h | ⟨r', hr', hc', hf⟩)
        · exact Or.inl h
        · rcases List.mem_cons.mp hr' with rfl | hr''
          · exact absurd hc' hc
          · exact Or.inr ⟨r', hr'', hc', hf⟩


theorem mem_buildsOfData (sel : Selection) (acc : List String) (d : DashboardData)
    (x : String) :
    x ∈ buildsOfData sel acc d ↔ x ∈ acc ∨ buildFromDataset sel d x := by
  unfold buildsOfData buildFromDataset
  cases hbc : resolveAlias BUILD_COL_ALIASES d.headers with
  | none => simp
  | some bc =>
    rw [mem_foldl_add]
    simp

theorem mem_foldl_buildsOfData (sel : Selection) :
    ∀ (ds : List DashboardData) (acc : List String) (x : String),
      x ∈ ds.foldl (buildsOfData sel) acc ↔
        x ∈ acc ∨ ∃ d ∈ ds, buildFromDataset sel d x := by
  intro ds
  induction ds with
  | nil => simp
  | cons d ds' ih =>
    intro acc x
    simp only [List.foldl_cons]
    rw [ih, mem_buildsOfData]
    constructor
    · rintro ((h | h) | ⟨d', hd', h⟩)
      · exact Or.inl h
      · exact Or.inr ⟨d, List.mem_cons_self d ds', h⟩
      · exact Or.inr ⟨d', List.mem_cons_of_mem d hd', h⟩
    · rintro (h | ⟨d', hd', h⟩)
      · exact Or.inl (Or.inl h)
      · rcases List.mem_cons.mp hd' with rfl | hd''
        · exact Or.inl (Or.inr h)
        · exact Or.inr ⟨d', hd'', h⟩

/-- Counterexample to claim C6: a build cell holding the number `0` stringifies
(after the code's `r[bCol] || ''` falsy fallback) to the empty string and
is dropped, although the claim's "stringified and trimmed, with empty
values excluded" reading would keep `"0"` (`String(0).trim() = "0" ≠ ""`):
the exposed builds list is `[]`, not `["0"]`. -/
theorem builds_zero_cex :
    builds
        [⟨["Platform", "RC Build"],
          [[("Platform", Cell.str "Android"), ("RC Build", Cell.num 0)]]⟩]
        ⟨"All", "All", "", ""⟩ = [] ∧
    jsTrim (cellToString (Cell.num 0)) = "0" ∧
    ("0" : String) ≠ "" :=
  ⟨by decide, by decide, by decide⟩

/-- Claim C6 (amended): the builds list exposed to the UI contains exactly
the distinct non-empty results of trimming the stringification of the
`r[bCol] || ''` build cell (so a falsy build cell — absent, empty string,
or the number 0 — is excluded along with values trimming to the empty
string) over the rows of the loaded datasets that match the selected
platform (all rows when the selection is `"All"`; a build appearing only
under a different platform's rows is excluded), sorted descending in the
numeric-aware natural order. -/
theorem builds_spec (dataMaps : List DashboardData) (sel : Selection) :
    (∀ x, x ∈ builds dataMaps sel ↔
      x ≠ "" ∧ ∃ d ∈ dataMaps, buildFromDataset sel d x) ∧
    List.Sorted natDescRel (builds dataMaps sel) := by
  constructor
  · intro x
    unfold builds
    rw [(List.perm_insertionSort natDescRel _).mem_iff, List.mem_filter,
      mem_foldl_buildsOfData]
    simp only [List.not_mem_nil, false_or, bne_iff_ne]
    exact and_comm
  · exact List.sorted_insertionSort natDescRel _

/-- Witness for `builds_spec`: over a dataset with one Android build
`"5.1"` and one iOS build `"6.0"`, scoping to Android yields exactly
`["5.1"]` — `"5.1"` is a member and `"6.0"` is not. -/
theorem builds_spec_w :
    "5.1" ∈ builds
      [⟨["Platform", "RC Build"],
        [[("Platform", Cell.str "Android"), ("RC Build", Cell.str "5.1")],
         [("Platform", Cell.str "iOS"), ("RC Build", Cell.str "6.0")]]⟩]
      ⟨"Android", "All", "", ""⟩ ∧
    "6.0" ∉ builds
      [⟨["Platform", "RC Build"],
        [[("Platform", Cell.str "Android"), ("RC Build", Cell.str "5.1")],
         [("Platform", Cell.str "iOS"), ("RC Build", Cell.str "6.0")]]⟩]
      ⟨"Android", "All", "", ""⟩ := by
  constructor
  · refine ((builds_spec _ _).1 "5.1").mpr ⟨by decide, _, List.mem_singleton_self _,
      "RC Build", by decide, [("Platform", Cell.str "Android"), ("RC Build", Cell.str "5.1")],
      ?_, by decide, by decide⟩
    exact List.mem_cons_self _ _
  · intro hmem
    rcases ((builds_spec _ _).1 "6.0").mp hmem with ⟨_, d, hd, bc, hbc, r, hr, hmatch, hstr⟩
    rcases List.mem_singleton.mp hd with rfl
    have hbc' : bc = "RC Build" := by
      rw [show resolveAlias BUILD_COL_ALIASES
        ["Platform", "RC Build"] = some "RC Build" from by decide] at hbc
      exact (Option.some.injEq _ _ ▸ hbc).symm
    subst hbc'
    rcases List.mem_cons.mp hr with rfl | hr'
    · exact absurd hstr (by decide)
    · rcases List.mem_singleton.mp hr' with rfl
      exact absurd hmatch (by decide)

/-! ## Helper lemmas -/

theorem gatedFilter_sublist (g : Bool) (f : Row → Bool) (l : List Row) :
    List.Sublist (gatedFilter g f l) l := by
  unfold gatedFilter
  by_cases h : g = true
  · rw [if_pos h]; exact List.filter_sublist l
  · rw [if_neg h]

theorem gatedFilter_comm (g1 g2 : Bool) (f1 f2 : Row → Bool) (l : List Row) :
    gatedFilter g1 f1 (gatedFilter g2 f2 l) = gatedFilter g2 f2 (gatedFilter g1 f1 l) := by
  cases g1 <;> cases g2 <;> simp [gatedFilter]
  exact List.filter_congr (fun a _ => Bool.and_comm (f1 a) (f2 a))

theorem gatedFilter_comm3 (g1 g2 g3 : Bool) (f1 f2 f3 : Row → Bool) (l : List Row) :
    gatedFilter g1 f1 (gatedFilter g2 f2 (gatedFilter g3 f3 l)) =
      gatedFilter g1 f1 (gatedFilter g3 f3 (gatedFilter g2 f2 l)) ∧
    gatedFilter g1 f1 (gatedFilter g2 f2 (gatedFilter g3 f3 l)) =
      gatedFilter g2 f2 (gatedFilter g1 f1 (gatedFilter g3 f3 l)) ∧
    gatedFilter g1 f1 (gatedFilter g2 f2 (gatedFilter g3 f3 l)) =
      gatedFilter g2 f2 (gatedFilter g3 f3 (gatedFilter g1 f1 l)) ∧
    gatedFilter g1 f1 (gatedFilter g2 f2 (gatedFilter g3 f3 l)) =
      gatedFilter g3 f3 (gatedFilter g1 f1 (gatedFilter g2 f2 l)) ∧
    gatedFilter g1 f1 (gatedFilter g2 f2 (gatedFilter g3 f3 l)) =
      gatedFilter g3 f3 (gatedFilter g2 f2 (gatedFilter g1 f1 l)) := by
  refine ⟨congrArg _ (gatedFilter_comm g2 g3 f2 f3 l),
    gatedFilter_comm g1 g2 f1 f2 _,
    (gatedFilter_comm g1 g2 f1 f2 _).trans
      (congrArg (gatedFilter g2 f2) (gatedFilter_comm g1 g3 f1 f3 l)),
    (congrArg (gatedFilter g1 f1) (gatedFilter_comm g2 g3 f2 f3 l)).trans
      (gatedFilter_comm g1 g3 f1 f3 _),
    ((gatedFilter_comm g1 g2 f1 f2 _).trans
      (congrArg (gatedFilter g2 f2) (gatedFilter_comm g1 g3 f1 f3 l))).trans
      (gatedFilter_comm g2 g3 f2 f3 _)⟩

theorem stagePlatform_sublist (data : DashboardData) (sel : Selection) (l : List Row) :
    List.Sublist (stagePlatform data sel l) l := gatedFilter_sublist _ _ l

theorem stageBuild_sublist (data : DashboardData) (sel : Selection) (l : List Row) :
    List.Sublist (stageBuild data sel l) l := gatedFilter_sublist _ _ l

theorem stageDate_sublist (data : DashboardData) (sel : Selection) (l : List Row) :
    List.Sublist (stageDate data sel l) l := gatedFilter_sublist _ _ l

theorem mem_gatedFilter (g : Bool) (f : Row → Bool) (l : List Row) (r : Row)
    (hr : r ∈ l) (hf : g = true → f r = true) : r ∈ gatedFilter g f l := by
  unfold gatedFilter
  cases g with
  | false => simpa using hr
  | true => simpa using List.mem_filter.mpr ⟨hr, hf rfl⟩

/-! ## C4 — behaviour when no Date alias resolves -/

/-- Counterexample to claim C4: over a dataset whose headers contain no Date
alias, selecting an end date does *not* leave the row set unchanged (the
claimed skipping of the date predicate): the first variant filters on the
fallback key `''`, finds no truthy cell, and excludes every row. -/
theorem no_date_alias_cex :
    filteredRows
        ⟨["Platform", "RC Build"],
         [[("Platform", Cell.str "Android"), ("RC Build", Cell.str "5.1")]]⟩
        ⟨"All", "All", "", "2026-01-02"⟩ = [] ∧
    filteredRows
        ⟨["Platform", "RC Build"],
         [[("Platform", Cell.str "Android"), ("RC Build", Cell.str "5.1")]]⟩
        ⟨"All", "All", "", ""⟩ =
      [[("Platform", Cell.str "Android"), ("RC Build", Cell.str "5.1")]] ∧
    ([] : List Row) ≠
      [[("Platform", Cell.str "Android"), ("RC Build", Cell.str "5.1")]] :=
  ⟨by decide, by decide, by decide⟩

/-- Claim C4 (amended): when no Date alias resolves and a start or end date
is selected, the first variant's date stage filters on the fallback key
`''`; provided no row binds a truthy cell to the empty-string header (in
particular whenever the rows bind exactly the dataset's headers and `''`
is not among them), every row is excluded and the result is `[]`.  No
error is thrown — the filter is a total function. -/
theorem no_date_alias_excludes_all (data : DashboardData) (sel : Selection)
    (hd : resolveAlias DATE_COL_ALIASES data.headers = none)
    (hg : sel.startDate ≠ "" ∨ sel.endDate ≠ "")
    (hrows : ∀ r ∈ data.rows, ∀ c, rget r "" = some c → c.truthy = false) :
    filteredRows data sel = [] := by
  unfold filteredRows stageDate
  rw [hd]
  have hgate : (sel.startDate != "" || sel.endDate != "") = true := by
    rcases hg with h | h <;> simp [h]
  rw [gatedFilter, if_pos hgate, List.filter_eq_nil_iff]
  intro r hr
  have hr' : r ∈ data.rows :=
    ((stageBuild_sublist data sel _).trans (stagePlatform_sublist data sel _)).subset hr
  unfold datePredV1
  cases hcell : rget r (Option.getD none "") with
  | none => simp
  | some c =>
    have : c.truthy = false := hrows r hr' c hcell
    simp [this]

/-- Witness for `no_date_alias_excludes_all`: a singleton dataset with no
Date alias and a start date selected filters down to `[]`. -/
theorem no_date_alias_excludes_all_w :
    filteredRows ⟨["Platform"], [[("Platform", Cell.str "iOS")]]⟩
      ⟨"All", "All", "2026-01-01", ""⟩ = [] := by
  apply no_date_alias_excludes_all
  · decide
  · exact Or.inl (by decide)
  · intro r hr c hc
    rcases List.mem_singleton.mp hr with rfl
    rw [show rget [("Platform", Cell.str "iOS")] "" = none from by decide] at hc
    cases hc

/-! ## C10 — filtering returns an order-preserving duplicate-free
subsequence of the input -/

/-- Claim C10: for every dataset and filter selection, the filtered output of
either `filteredRows` variant is a sublist (order-preserving subsequence)
of the input row list — hence every output row occurs in the input, the
relative order of survivors matches the input, and no input occurrence is
used twice (the per-row multiplicity never grows).  The input itself is a
pure immutable value in this model, so it is left unmodified by
construction. -/
theorem filtered_subsequence (data : DashboardData) (sel : Selection) :
    List.Sublist (filteredRows data sel) data.rows ∧
    (∀ r : Row, (filteredRows data sel).count r ≤ data.rows.count r) ∧
    List.Sublist (filteredRowsV2 data.rows sel) data.rows ∧
    (∀ r : Row, (filteredRowsV2 data.rows sel).count r ≤ data.rows.count r) := by
  have h1 : List.Sublist (filteredRows data sel) data.rows := by
    unfold filteredRows
    exact ((stageDate_sublist data sel _).trans (stageBuild_sublist data sel _)).trans
      (stagePlatform_sublist data sel _)
  have h2 : List.Sublist (filteredRowsV2 data.rows sel) data.rows := by
    unfold filteredRowsV2
    exact (((gatedFilter_sublist _ _ _).trans (gatedFilter_sublist _ _ _)).trans
      (gatedFilter_sublist _ _ _)).trans (gatedFilter_sublist _ _ _)
  exact ⟨h1, fun r => h1.count_le r, h2, fun r => h2.count_le r⟩

/-! ## C1 — the end bound admits a row dated exactly on the end date -/

/-- Claim C1: in both `filteredRows` variants, a row whose resolved Date
cell parses to exactly the (timezone-less) midnight timestamp of the
selected end date — i.e. the same calendar date with no time-of-day — and
which satisfies the other dimensions of the selection (platform, build,
and the start bound when one is set) is included by the date-range
filter: the end bound is inclusive of such same-day rows (the second
variant even compares against end-of-day, 23:59:59.999). -/
theorem end_date_inclusive :
    (∀ (data : DashboardData) (sel : Selection) (r : Row) (dc : String) (c : Cell) (e : Int),
      r ∈ data.rows →
      resolveAlias DATE_COL_ALIASES data.headers = some dc →
      rget r dc = some c → c.truthy = true →
      jsDateCell c = some e →
      jsDateStr sel.endDate = some e →
      (sel.startDate = "" ∨ ∃ sd, jsDateStr sel.startDate = some sd ∧ sd ≤ e) →
      (sel.platform = "All" ∨ ∀ pc, resolveAlias PLATFORM_COL_ALIASES data.headers = some pc →
        jsStringOpt (rget r pc) = sel.platform) →
      (sel.build = "All" ∨ ∀ bc, resolveAlias BUILD_COL_ALIASES data.headers = some bc →
        jsStringOpt (rget r bc) = sel.build) →
      r ∈ filteredRows data sel) ∧
    (∀ (rows : List Row) (sel : Selection) (r : Row) (c : Cell) (e : Int),
      r ∈ rows →
      rget r "Build Date" = some c →
      jsDateCell c = some e →
      jsDateStr sel.endDate = some e →
      (sel.startDate = "" ∨ ∃ sd, jsDateStr sel.startDate = some sd ∧ sd ≤ e) →
      (sel.platform = "All" ∨ cellStrictEqStr (rget r "Platform") sel.platform = true) →
      (sel.build = "All" ∨ cellStrictEqStr (rget r "RC Build") sel.build = true) →
      r ∈ filteredRowsV2 rows sel) := by
  constructor
  · intro data sel r dc c e hr hdc hcell htruthy hbd hend hstart hplat hbuild
    unfold filteredRows stagePlatform stageBuild stageDate
    apply mem_gatedFilter
    · apply mem_gatedFilter
      · apply mem_gatedFilter
        · exact hr
        · intro hg
          obtain ⟨h1, _⟩ := Bool.and_eq_true_iff.mp hg
          rcases hplat with h | h
          · rw [h] at h1; simp at h1
          · rcases hpc : resolveAlias PLATFORM_COL_ALIASES data.headers with _ | pc
            · rw [hpc] at hg; simp at hg
            · simpa [platformPredV1] using h pc hpc
      · intro hg
        obtain ⟨h1, _⟩ := Bool.and_eq_true_iff.mp hg
        rcases hbuild with h | h
        · rw [h] at h1; simp at h1
        · rcases hbc : resolveAlias BUILD_COL_ALIASES data.headers with _ | bc
          · rw [hbc] at hg; simp at hg
          · simpa [buildPredV1] using h bc hbc
    · intro _
      unfold datePredV1
      rw [hdc]
      simp only [Option.getD_some]
      rw [hcell]
      have hendLe : (sel.endDate == "" || dateLe (jsDateCell c) (jsDateStr sel.endDate)) = true := by
        rw [hbd, hend]
        simp [dateLe]
      have hstartLe :
          (sel.startDate == "" || dateGe (jsDateCell c) (jsDateStr sel.startDate)) = true := by
        rcases hstart with h | ⟨sd, hsd, hle⟩
        · simp [h]
        · rw [hbd, hsd]
          simp [dateGe, hle]
      show (c.truthy &&
        ((sel.startDate == "" || dateGe (jsDateCell c) (jsDateStr sel.startDate)) &&
         (sel.endDate == "" || dateLe (jsDateCell c) (jsDateStr sel.endDate)))) = true
      rw [htruthy, hstartLe, hendLe]
      rfl
  · intro rows sel r c e hr hcell hbd hend hstart hplat hbuild
    unfold filteredRowsV2
    apply mem_gatedFilter
    · apply mem_gatedFilter
      · apply mem_gatedFilter
        · apply mem_gatedFilter
          · exact hr
          · intro hg
            rcases hbuild with h | h
            · rw [h] at hg; simp at hg
            · exact h
        · intro hg
          rcases hplat with h | h
          · rw [h] at hg; simp at hg
          · exact h
      · intro hg
        rcases hstart with h | ⟨sd, hsd, hle⟩
        · rw [h] at hg; simp at hg
        · rw [hcell]
          show dateGe (jsDateCell c) (jsDateStr sel.startDate) = true
          rw [hbd, hsd]
          simp [dateGe, hle]
    · intro _
      rw [hcell]
      show dateLeEndOfDay (jsDateCell c) (jsDateStr sel.endDate) = true
      rw [hbd, hend]
      simp [dateLeEndOfDay]

/-- Witness for `end_date_inclusive`: a row dated `2026-01-02` survives
both variants' filters when the selected end date is `2026-01-02`. -/
theorem end_date_inclusive_w :
    [("Platform", Cell.str "Android"), ("Build Date", Cell.str "2026-01-02")] ∈
      filteredRows
        ⟨["Platform", "Build Date"],
         [[("Platform", Cell.str "Android"), ("Build Date", Cell.str "2026-01-02")]]⟩
        ⟨"All", "All", "", "2026-01-02"⟩ ∧
    [("Platform", Cell.str "Android"), ("Build Date", Cell.str "2026-01-02")] ∈
      filteredRowsV2
        [[("Platform", Cell.str "Android"), ("Build Date", Cell.str "2026-01-02")]]
        ⟨"All", "All", "", "2026-01-02"⟩ := by
  constructor
  · exact end_date_inclusive.1
      ⟨["Platform", "Build Date"],
       [[("Platform", Cell.str "Android"), ("Build Date", Cell.str "2026-01-02")]]⟩
      ⟨"All", "All", "", "2026-01-02"⟩ _ "Build Date" (Cell.str "2026-01-02")
      (daysFromCivil 2026 1 2 * msPerDay)
      (by decide) (by decide) (by decide) (by decide) (by decide) (by decide)
      (Or.inl rfl) (Or.inl rfl) (Or.inl rfl)
  · exact end_date_inclusive.2
      [[("Platform", Cell.str "Android"), ("Build Date", Cell.str "2026-01-02")]]
      ⟨"All", "All", "", "2026-01-02"⟩ _ (Cell.str "2026-01-02")
      (daysFromCivil 2026 1 2 * msPerDay)
      (by decide) (by decide) (by decide) (by decide)
      (Or.inl rfl) (Or.inl rfl) (Or.inl rfl)

/-! ## C7 — the three filter dimensions commute -/

/-- Claim C7: for every dataset (fixing the headers used for alias
resolution), filter selection and row sequence, applying the platform,
build and date-range stages in any of the six orders yields the same row
list, and `filteredRows` is the canonical (platform, build, date) order.
The filter is a pure function, so idempotence/commutativity is over the
value level. -/
theorem filter_dimensions_comm (data : DashboardData) (sel : Selection) (l : List Row) :
    filteredRows data sel =
      stageDate data sel (stageBuild data sel (stagePlatform data sel data.rows)) ∧
    stageDate data sel (stageBuild data sel (stagePlatform data sel l)) =
      stageDate data sel (stagePlatform data sel (stageBuild data sel l)) ∧
    stageDate data sel (stageBuild data sel (stagePlatform data sel l)) =
      stageBuild data sel (stageDate data sel (stagePlatform data sel l)) ∧
    stageDate data sel (stageBuild data sel (stagePlatform data sel l)) =
      stageBuild data sel (stagePlatform data sel (stageDate data sel l)) ∧
    stageDate data sel (stageBuild data sel (stagePlatform data sel l)) =
      stagePlatform data sel (stageDate data sel (stageBuild data sel l)) ∧
    stageDate data sel (stageBuild data sel (stagePlatform data sel l)) =
      stagePlatform data sel (stageBuild data sel (stageDate data sel l)) := by
  unfold stageDate stageBuild stagePlatform
  exact ⟨rfl, (gatedFilter_comm3 _ _ _ _ _ _ l).1, (gatedFilter_comm3 _ _ _ _ _ _ l).2.1,
    (gatedFilter_comm3 _ _ _ _ _ _ l).2.2.1, (gatedFilter_comm3 _ _ _ _ _ _ l).2.2.2.1,
    (gatedFilter_comm3 _ _ _ _ _ _ l).2.2.2.2⟩

/-! ## C2 — per-cell numeric coercion -/

theorem beq_false_of_isDigit {c d : Char} (h : c.isDigit = true) (hd : d.isDigit = false) :
    (c == d) = false := by
  cases hcd : c == d
  · rfl
  · exact absurd (beq_iff_eq.mp hcd ▸ h) (by rw [hd]; exact Bool.false_ne_true)

theorem jsWs_of_isDigit {c : Char} (h : c.isDigit = true) : jsWs c = false := by
  unfold jsWs
  rw [beq_false_of_isDigit h (by decide), beq_false_of_isDigit h (by decide),
    beq_false_of_isDigit h (by decide), beq_false_of_isDigit h (by decide),
    beq_false_of_isDigit h (by decide), beq_false_of_isDigit h (by decide)]
  rfl

theorem isExpChar_of_isDigit {c : Char} (h : c.isDigit = true) : isExpChar c = false := by
  unfold isExpChar
  rw [beq_false_of_isDigit h (by decide), beq_false_of_isDigit h (by decide)]
  rfl

theorem radixLetter_false {c : Char} (h : c.isDigit = true ∨ c = '.') :
    (c == 'x' || c == 'X' || c == 'o' || c == 'O' || c == 'b' || c == 'B') = false := by
  rcases h with h | rfl
  · rw [beq_false_of_isDigit h (by decide), beq_false_of_isDigit h (by decide),
      beq_false_of_isDigit h (by decide), beq_false_of_isDigit h (by decide),
      beq_false_of_isDigit h (by decide), beq_false_of_isDigit h (by decide)]
    rfl
  · decide

theorem dropWhile_eq_self_of (p : Char → Bool) (l : List Char)
    (h : ∀ c ∈ l, p c = false) : l.dropWhile p = l := by
  cases l with
  | nil => rfl
  | cons c t =>
    rw [List.dropWhile_cons, h c (List.mem_cons_self c t)]
    simp

theorem trimList_of_no_ws (l : List Char) (h : ∀ c ∈ l, jsWs c = false) :
    trimList l = l := by
  unfold trimList
  rw [dropWhile_eq_self_of _ _ h,
    dropWhile_eq_self_of _ _ (fun c hc => h c (List.mem_reverse.mp hc)),
    List.reverse_reverse]

theorem splitFirstP_none_of (p : Char → Bool) :
    ∀ l : List Char, (∀ c ∈ l, p c = false) → splitFirstP p l = (l, none) := by
  intro l
  induction l with
  | nil => intro _; rfl
  | cons c t ih =>
    intro h
    unfold splitFirstP
    rw [h c (List.mem_cons_self c t)]
    simp only [Bool.false_eq_true, if_false]
    rw [ih (fun x hx => h x (List.mem_cons_of_mem c hx))]

theorem splitFirstP_eq_none (p : Char → Bool) :
    ∀ l a : List Char, splitFirstP p l = (a, none) → l = a ∧ ∀ c ∈ a, p c = false := by
  intro l
  induction l with
  | nil =>
    intro a h
    cases h
    exact ⟨rfl, by simp⟩
  | cons c t ih =>
    intro a h
    unfold splitFirstP at h
    by_cases hc : p c = true
    · rw [if_pos hc] at h
      cases h
    · rw [if_neg hc] at h
      rcases hr : splitFirstP p t with ⟨a', b'⟩
      rw [hr] at h
      cases h
      obtain ⟨ht, hall⟩ := ih a' hr
      refine ⟨by rw [ht], ?_⟩
      intro x hx
      rcases List.mem_cons.mp hx with rfl | hx'
      · exact Bool.eq_false_iff.mpr hc
      · exact hall x hx'

theorem splitFirstP_eq_some (p : Char → Bool) :
    ∀ l a b : List Char, splitFirstP p l = (a, some b) →
      (∀ c ∈ a, p c = false) ∧ ∃ ch, p ch = true ∧ l = a ++ ch :: b := by
  intro l
  induction l with
  | nil => intro a b h; cases h
  | cons c t ih =>
    intro a b h
    unfold splitFirstP at h
    by_cases hc : p c = true
    · rw [if_pos hc] at h
      cases h
      exact ⟨by simp, c, hc, rfl⟩
    · rw [if_neg hc] at h
      rcases hr : splitFirstP p t with ⟨a', b'⟩
      rw [hr] at h
      cases h
      obtain ⟨hall, ch, hch, ht⟩ := ih a' b hr
      refine ⟨?_, ch, hch, by rw [ht, List.cons_append]⟩
      intro x hx
      rcases List.mem_cons.mp hx with rfl | hx'
      · exact Bool.eq_false_iff.mpr hc
      · exact hall x hx'

theorem stripSign_decomp (l : List Char) (neg : Bool) (rest : List Char)
    (h : stripSign l = (neg, rest)) :
    l = rest ∨ l = '-' :: rest ∨ l = '+' :: rest := by
  unfold stripSign at h
  split at h
  · cases h; right; left; rfl
  · cases h; right; right; rfl
  · cases h; left; rfl

theorem parseUnsignedDec_int (rest ip : List Char)
    (hsp : splitFirstP isDot rest = (ip, none))
    (hne : ip ≠ []) (hdig : allDigits ip = true) :
    parseUnsignedDec rest = some (qOfNat (digitsToNat ip)) := by
  obtain ⟨hrest, _⟩ := splitFirstP_eq_none isDot rest ip hsp
  have hnoexp : splitFirstP isExpChar rest = (rest, none) := by
    apply splitFirstP_none_of
    intro c hc
    rw [hrest] at hc
    exact isExpChar_of_isDigit (List.all_eq_true.mp hdig c hc)
  unfold parseUnsignedDec
  rw [hnoexp]
  show parseMantissa rest = _
  unfold parseMantissa
  rw [hsp]
  simp [hne, hdig]

theorem parseUnsignedDec_dec (rest ip fp : List Char)
    (hsp : splitFirstP isDot rest = (ip, some fp))
    (hipne : ip ≠ []) (hipd : allDigits ip = true) (hfpd : allDigits fp = true) :
    parseUnsignedDec rest =
      some (qAdd (qOfNat (digitsToNat ip))
        (qDiv (qOfNat (digitsToNat fp)) (qOfNat (pow10 fp.length)))) := by
  obtain ⟨-, ch, hch, hrest⟩ := splitFirstP_eq_some isDot rest ip fp hsp
  have hchdot : ch = '.' := beq_iff_eq.mp hch
  have hmem : ∀ c ∈ rest, c.isDigit = true ∨ c = '.' := by
    intro c hc
    rw [hrest] at hc
    rcases List.mem_append.mp hc with hc' | hc'
    · exact Or.inl (List.all_eq_true.mp hipd c hc')
    · rcases List.mem_cons.mp hc' with rfl | hc''
      · exact Or.inr hchdot
      · exact Or.inl (List.all_eq_true.mp hfpd c hc'')
  have hnoexp : splitFirstP isExpChar rest = (rest, none) := by
    apply splitFirstP_none_of
    intro c hc
    rcases hmem c hc with h | rfl
    · exact isExpChar_of_isDigit h
    · decide
  unfold parseUnsignedDec
  rw [hnoexp]
  show parseMantissa rest = _
  unfold parseMantissa
  rw [hsp]
  simp [hipne, hipd, hfpd]

theorem js_eval_core (s : String) (neg : Bool) (rest : List Char)
    (hss : stripSign s.data = (neg, rest))
    (hrestne : rest ≠ [])
    (hmem : ∀ c ∈ rest, c.isDigit = true ∨ c = '.')
    (hfirst : ∀ c tail, rest = c :: tail → c.isDigit = true)
    (v : ℚ) (hdec : parseUnsignedDec rest = some v) :
    s ≠ "" ∧ jsStrToNumber s = some (JsNum.fin (if neg then -v else v)) := by
  have hdecomp := stripSign_decomp s.data neg rest hss
  have hnotinf : rest ≠ infinityChars := by
    intro he
    have : ('I' : Char).isDigit = true := hfirst 'I' ['n', 'f', 'i', 'n', 'i', 't', 'y'] he
    exact absurd this (by decide)
  have hmemws : ∀ c ∈ rest, jsWs c = false := by
    intro c hc
    rcases hmem c hc with h | rfl
    · exact jsWs_of_isDigit h
    · decide
  have hnws : ∀ c ∈ s.data, jsWs c = false := by
    intro c hc
    rcases hdecomp with hD | hD | hD <;> rw [hD] at hc
    · exact hmemws c hc
    · rcases List.mem_cons.mp hc with rfl | hc'
      · decide
      · exact hmemws c hc'
    · rcases List.mem_cons.mp hc with rfl | hc'
      · decide
      · exact hmemws c hc'
  have htrim : trimList s.data = s.data := trimList_of_no_ws _ hnws
  have hsne : s.data ≠ [] := by
    rcases hdecomp with hD | hD | hD <;> rw [hD]
    · exact hrestne
    · simp
    · simp
  have hradixRest : ∀ c0 : Char, isRadixStart (c0 :: rest) = false := by
    intro c0
    cases rest with
    | nil => rfl
    | cons c2 t =>
      show (c0 == '0' &&
        (c2 == 'x' || c2 == 'X' || c2 == 'o' || c2 == 'O' || c2 == 'b' || c2 == 'B')) = false
      rw [radixLetter_false (hmem c2 (List.mem_cons_self c2 t))]
      exact Bool.and_false _
  have hradix : isRadixStart s.data = false := by
    rcases hdecomp with hD | hD | hD <;> rw [hD]
    · cases hr : rest with
      | nil => exact absurd hr hrestne
      | cons c tail =>
        cases tail with
        | nil => rfl
        | cons c2 t =>
          have hc2 : c2 ∈ rest := by
            rw [hr]
            exact List.mem_cons_of_mem c (List.mem_cons_self c2 t)
          show (c == '0' &&
            (c2 == 'x' || c2 == 'X' || c2 == 'o' || c2 == 'O' || c2 == 'b' || c2 == 'B')) = false
          rw [radixLetter_false (hmem c2 hc2)]
          exact Bool.and_false _
    · exact hradixRest '-'
    · exact hradixRest '+'
  constructor
  · intro hempty
    exact hsne (by rw [hempty])
  · unfold jsStrToNumber
    rw [htrim, if_neg hsne, hradix]
    simp only [Bool.false_eq_true, if_false]
    rw [hss, if_neg hnotinf, hdec]

/-- Counterexample to claim C2: the trimmed cell text `"1e5"` matches no
optionally-signed integer/decimal pattern, so by the claim the stored Cell
Value should be the string `"1e5"`; the parser stores the number 100000
(JS `Number` also accepts exponent notation). -/
theorem cell_coercion_cex :
    specNumeric "1e5" = false ∧
    (parseCSV "A\n1e5").rows = [[("A", Cell.num (qOfNat 100000))]] ∧
    Cell.num (qOfNat 100000) ≠ Cell.str "1e5" :=
  ⟨by decide, by decide, by decide⟩

/-- Claim C2 (amended): (i) every trimmed cell text matching the signed
integer/decimal pattern is stored as a number equal to that text's exact
numeric value; (ii) every other non-empty trimmed text is stored as the
identical string exactly when the broader JS `Number(...)` coercion also
rejects it (`isNaN` holds) — `Number` additionally accepts exponent,
hex/octal/binary and `Infinity` forms; (iii) in particular a text that
coerces to a signed infinity passes the `!isNaN` gate and is stored as
that non-finite number, not as a string (the counterexample exhibits the
exponent case); (iv) every cell stored by `parseCSV` is the coercion
`cellOfVal` of a trimmed raw text. -/
theorem cell_coercion :
    (∀ v : String, specNumeric v = true →
      v ≠ "" ∧ cellOfVal v = Cell.num (specNumValue v)) ∧
    (∀ v : String, v ≠ "" → jsStrToNumber v = none → cellOfVal v = Cell.str v) ∧
    (∀ (v : String) (b : Bool), v ≠ "" → jsStrToNumber v = some (JsNum.inf b) →
      cellOfVal v = Cell.inf b) ∧
    (∀ (t : String) (r : Row) (p : String × Cell), r ∈ (parseCSV t).rows → p ∈ r →
      ∃ u : String, p.2 = cellOfVal (jsTrim u)) := by
  refine ⟨?_, ?_, ?_, ?_⟩
  · intro v h
    unfold specNumeric at h
    set pr := stripSign v.data with hpr
    have hss : stripSign v.data = (pr.1, pr.2) := by
      rw [← hpr]
    rcases hsp : splitFirstP isDot pr.2 with ⟨ip, ofp⟩
    rw [hsp] at h
    cases ofp with
    | none =>
      have h2 : (decide (ip ≠ []) && allDigits ip) = true := h
      simp only [Bool.and_eq_true, decide_eq_true_eq] at h2
      obtain ⟨hne, hdig⟩ := h2
      obtain ⟨hrest, -⟩ := splitFirstP_eq_none isDot pr.2 ip hsp
      have hrestne : pr.2 ≠ [] := by rw [hrest]; exact hne
      have hmem : ∀ c ∈ pr.2, c.isDigit = true ∨ c = '.' := by
        intro c hc
        rw [hrest] at hc
        exact Or.inl (List.all_eq_true.mp hdig c hc)
      have hfirst : ∀ c tail, pr.2 = c :: tail → c.isDigit = true := by
        intro c tail hr
        rw [hrest] at hr
        refine List.all_eq_true.mp hdig c ?_
        rw [hr]
        exact List.mem_cons_self c tail
      have hcore := js_eval_core v pr.1 pr.2 hss hrestne hmem hfirst
        (qOfNat (digitsToNat ip)) (parseUnsignedDec_int pr.2 ip hsp hne hdig)
      have hval : specNumValue v =
          (if pr.1 then -(qOfNat (digitsToNat ip)) else qOfNat (digitsToNat ip)) := by
        unfold specNumValue
        rw [← hpr, hsp]
      refine ⟨hcore.1, ?_⟩
      rw [hval]
      unfold cellOfVal
      rw [hcore.2]
      simp [hcore.1, jsNumToCell]
    | some fp =>
      have h2 : (decide (ip ≠ []) && decide (fp ≠ []) && allDigits ip && allDigits fp)
          = true := h
      simp only [Bool.and_eq_true, decide_eq_true_eq] at h2
      obtain ⟨⟨⟨hipne, hfpne⟩, hipd⟩, hfpd⟩ := h2
      obtain ⟨-, ch, hch, hrest⟩ := splitFirstP_eq_some isDot pr.2 ip fp hsp
      have hchdot : ch = '.' := beq_iff_eq.mp hch
      have hrestne : pr.2 ≠ [] := by
        rw [hrest]
        cases ip <;> simp
      have hmem : ∀ c ∈ pr.2, c.isDigit = true ∨ c = '.' := by
        intro c hc
        rw [hrest] at hc
        rcases List.mem_append.mp hc with hc' | hc'
        · exact Or.inl (List.all_eq_true.mp hipd c hc')
        · rcases List.mem_cons.mp hc' with rfl | hc''
          · exact Or.inr hchdot
          · exact Or.inl (List.all_eq_true.mp hfpd c hc'')
      have hfirst : ∀ c tail, pr.2 = c :: tail → c.isDigit = true := by
        intro c tail hr
        rw [hrest] at hr
        cases ip with
        | nil => exact absurd rfl hipne
        | cons d ds =>
          rw [List.cons_append] at hr
          injection hr with h1 h2
          rw [← h1]
          exact List.all_eq_true.mp hipd d (List.mem_cons_self d ds)
      have hcore := js_eval_core v pr.1 pr.2 hss hrestne hmem hfirst
        (qAdd (qOfNat (digitsToNat ip))
          (qDiv (qOfNat (digitsToNat fp)) (qOfNat (pow10 fp.length))))
        (parseUnsignedDec_dec pr.2 ip fp hsp hipne hipd hfpd)
      have hval : specNumValue v =
          (if pr.1 then
            -(qAdd (qOfNat (digitsToNat ip))
              (qDiv (qOfNat (digitsToNat fp)) (qOfNat (pow10 fp.length))))
          else
            qAdd (qOfNat (digitsToNat ip))
              (qDiv (qOfNat (digitsToNat fp)) (qOfNat (pow10 fp.length)))) := by
        unfold specNumValue
        rw [← hpr, hsp]
      refine ⟨hcore.1, ?_⟩
      rw [hval]
      unfold cellOfVal
      rw [hcore.2]
      simp [hcore.1, jsNumToCell]
  · intro v hne hnone
    unfold cellOfVal
    rw [hnone]
    simp
  · intro v b hne hinf
    unfold cellOfVal
    rw [hinf]
    simp [hne, jsNumToCell]
  · intro t r p hr hp
    unfold parseCSV at hr
    cases hnb : nonblankLines t with
    | nil =>
      rw [hnb] at hr
      simp at hr
    | cons l0 rest =>
      rw [hnb] at hr
      simp only [List.mem_map] at hr
      rcases hr with ⟨line, hline, rfl⟩
      unfold buildRow at hp
      rcases List.mem_map.mp hp with ⟨q, hq, rfl⟩
      cases hv : ((splitChar ',' line).map jsTrim).get? q.1 with
      | none =>
        refine ⟨"", ?_⟩
        show cellOfVal (Option.getD none "") = cellOfVal (jsTrim "")
        rw [show jsTrim "" = "" from by decide]
        rfl
      | some w =>
        rw [List.get?_map] at hv
        cases hsg : (splitChar ',' line).get? q.1 with
        | none =>
          rw [hsg] at hv
          simp at hv
        | some u =>
          rw [hsg] at hv
          have hw : jsTrim u = w := by
            injection hv
          refine ⟨u, ?_⟩
          show cellOfVal ((some w).getD "") = cellOfVal (jsTrim u)
          rw [← hw]
          rfl

/-- Witness for `cell_coercion`: `"-3.25"` is stored as its exact numeric
value, `"abc"` round-trips as a string, `"Infinity"` passes the `!isNaN`
gate and is stored as the non-finite number, and a concrete parsed cell is
the coercion of a trimmed raw text. -/
theorem cell_coercion_w :
    cellOfVal "-3.25" = Cell.num (specNumValue "-3.25") ∧
    cellOfVal "abc" = Cell.str "abc" ∧
    cellOfVal "Infinity" = Cell.inf false ∧
    ∃ u : String, (("A", Cell.str "x") : String × Cell).2 = cellOfVal (jsTrim u) := by
  refine ⟨(cell_coercion.1 "-3.25" (by decide)).2,
    cell_coercion.2.1 "abc" (by decide) (by decide),
    cell_coercion.2.2.1 "Infinity" false (by decide) (by decide),
    cell_coercion.2.2.2 "A\nx" [("A", Cell.str "x")] ("A", Cell.str "x")
      (by decide) (by decide)⟩

end RCDash
